import Mathlib

/-!
Shallow embedding of the browsafex browser-agent core, translated from the
TypeScript source (`src/lib/agent/agent.ts`, `src/lib/agent/worker.ts`,
`src/lib/agent/playwright.ts`, `src/lib/session-manager.ts`,
`src/app/api/agent/events/route.ts`, and the finish-session route), together
with theorems settling the frozen claims about that code.

Conventions used throughout:
- JS `undefined` fields become `Option` values; JS truthiness checks on
  strings become emptiness checks where the source relies on them.
- Asynchronous effects (the reasoning endpoint, the browser driver) become
  oracles passed explicitly to the embedded functions.
- In-place mutation of the conversation history becomes explicit state
  passing (`AgentState`).
-/

namespace Browsafex

/-- Image payload attached to a function response (the `inlineData` entries of
`functionResponse.parts` built in `runOneIteration`). -/
structure InlineImage where
  mimeType : String
  data : String
deriving DecidableEq, Repr

/-- Payload of `functionResponse.response` as built in `runOneIteration`:
either the `{ url, ...extraFrFields }` record produced for an `EnvState`
result, or the raw record returned by a custom function. -/
inductive RespPayload where
  | urlResp (url : String) (safetyAck : Bool)
  | raw (data : String)
deriving DecidableEq, Repr

/-- The `functionResponse` object of a conversation part: function name, the
structured `response` record, and the optional `parts` holding inline image
data (`undefined` after screenshot pruning). -/
structure FunctionResponse where
  name : Option String
  response : RespPayload
  respParts : Option (List InlineImage)
deriving DecidableEq, Repr

/-- A `safety_decision` argument as inspected by `_getSafetyConfirmation`. -/
structure SafetyDecision where
  decision : String
  explanation : String
deriving DecidableEq, Repr

/-- The argument record of a model-issued function call. Absent JS fields are
`none`. -/
structure FCArgs where
  x : Option Nat := none
  y : Option Nat := none
  destination_x : Option Nat := none
  destination_y : Option Nat := none
  text : Option String := none
  press_enter : Option Bool := none
  clear_before_typing : Option Bool := none
  direction : Option String := none
  magnitude : Option Nat := none
  url : Option String := none
  keys : Option String := none
  safety_decision : Option SafetyDecision := none
deriving DecidableEq, Repr

/-- A model-issued function call (`FunctionCall` of the GenAI SDK): a name and
an argument record. -/
structure FunctionCall where
  name : Option String := none
  args : FCArgs := {}
deriving DecidableEq, Repr

/-- One part of a conversation entry: plain text, a command request, or a
command result. -/
inductive Part where
  | text (s : String)
  | functionCall (fc : FunctionCall)
  | functionResponse (fr : FunctionResponse)
deriving DecidableEq, Repr

/-- One turn of the conversation history (`Content` of the GenAI SDK). -/
structure Content where
  role : String
  parts : Option (List Part)
deriving DecidableEq, Repr

/-- Finish reason of a candidate; only the malformed-function-call code is
distinguished by the agent. -/
inductive FinishReason where
  | STOP
  | MALFORMED_FUNCTION_CALL
  | OTHER
deriving DecidableEq, Repr

/-- One candidate reply of a model response. -/
structure Candidate where
  content : Option Content
  finishReason : Option FinishReason
deriving DecidableEq, Repr

/-- A reasoning-endpoint response: an optional list of candidates. -/
structure GenerateContentResponse where
  candidates : Option (List Candidate)
deriving DecidableEq, Repr

/-- `MAX_RECENT_TURN_WITH_SCREENSHOTS` from `agent.ts`. -/
def MAX_RECENT_TURN_WITH_SCREENSHOTS : Nat := 3

/-- `PREDEFINED_COMPUTER_USE_FUNCTIONS` from `agent.ts`. -/
def PREDEFINED_COMPUTER_USE_FUNCTIONS : List String :=
  ["open_web_browser", "click_at", "hover_at", "type_text_at", "scroll_document",
   "scroll_at", "wait_5_seconds", "go_back", "go_forward", "search", "navigate",
   "key_combination", "drag_and_drop"]

/-- The check guarding `hasScreenshot` in `_cleanupOldScreenshots`: the part is
a `functionResponse` whose (truthy) name is one of the predefined computer-use
functions. An empty-string name is JS-falsy, but it is also not in the
predefined list, so matching on `some n` is equivalent. -/
def partIsPredefFr : Part → Bool
  | .functionResponse fr =>
      match fr.name with
      | some n => PREDEFINED_COMPUTER_USE_FUNCTIONS.contains n
      | none => false
  | _ => false

/-- A turn that `_cleanupOldScreenshots` counts: user role, parts present, and
some part is a predefined-function response. -/
def isScreenshotTurn (c : Content) : Bool :=
  c.role == "user" &&
    (match c.parts with
     | some ps => ps.any partIsPredefFr
     | none => false)

/-- The inner stripping loop of `_cleanupOldScreenshots`, applied to one part:
for predefined-function responses, `functionResponse.parts` is set to
`undefined` while name and `response` are kept. -/
def stripPart (p : Part) : Part :=
  match p with
  | .functionResponse fr =>
      if partIsPredefFr (.functionResponse fr) then
        .functionResponse { fr with respParts := none }
      else
        .functionResponse fr
  | _ => p

/-- Stripping applied to a whole turn. -/
def stripContent (c : Content) : Content :=
  { c with parts := c.parts.map (List.map stripPart) }

/-- The reverse iteration of `_cleanupOldScreenshots`: `n` is the number of
screenshot turns already seen (more recent than the current position); a
screenshot turn is stripped when the running count exceeds the limit. -/
def cleanupRev : Nat → List Content → List Content
  | _, [] => []
  | n, c :: rest =>
      if isScreenshotTurn c then
        (if n + 1 > MAX_RECENT_TURN_WITH_SCREENSHOTS then stripContent c else c) ::
          cleanupRev (n + 1) rest
      else
        c :: cleanupRev n rest

/-- `BrowserAgent._cleanupOldScreenshots`: iterate the history from the most
recent turn backwards, keeping image payloads only in the most recent
`MAX_RECENT_TURN_WITH_SCREENSHOTS` screenshot turns. -/
def cleanupOldScreenshots (cs : List Content) : List Content :=
  (cleanupRev 0 cs.reverse).reverse

/-- Fuel-bounded ⌊log₂ n⌋; with fuel `n + 1` the fuel never runs out, since
halving reaches a value below 2 within `n` steps. -/
def log2Aux : Nat → Nat → Nat
  | 0, _ => 0
  | fuel + 1, n => if 2 ≤ n then log2Aux fuel (n / 2) + 1 else 0

/-- ⌊log₂ n⌋ for `n ≥ 1` (and 0 at 0), by repeated halving. -/
def natLog2 (n : Nat) : Nat :=
  log2Aux (n + 1) n

/-- ⌊log₂ (n / d)⌋ of a positive rational given as a numerator/denominator
pair, computed with integer arithmetic only. -/
def natFloorLog2Q (n d : Nat) : ℤ :=
  let l : ℤ := (natLog2 n : ℤ) - (natLog2 d : ℤ)
  let ge : Bool :=
    if 0 ≤ l then decide (d * 2 ^ l.toNat ≤ n)
    else decide (d ≤ n * 2 ^ (-l).toNat)
  if ge then l else l - 1

/-- Round the nonnegative rational `n / d` to the nearest IEEE-754 binary64
value (round half to even), returned as a mantissa/binary-exponent pair whose
exact value `m · 2^e` is the value of that double. Valid away from the
overflow and subnormal ranges, which the agent's coordinate arithmetic never
approaches. -/
def roundB64 (n d : Nat) : Nat × ℤ :=
  if n = 0 then (0, 0)
  else
    let e : ℤ := natFloorLog2Q n d - 52
    let N : Nat := if 0 ≤ e then n else n * 2 ^ (-e).toNat
    let D : Nat := if 0 ≤ e then d * 2 ^ e.toNat else d
    let k := N / D
    let r := N % D
    let k2 := if 2 * r < D then k
      else if D < 2 * r then k + 1
      else if k % 2 = 0 then k else k + 1
    (k2, e)

/-- Exact `Math.floor` of the nonnegative dyadic value `m · 2^e`. -/
def dyadicFloor (m : Nat) (e : ℤ) : Nat :=
  if 0 ≤ e then m * 2 ^ e.toNat else m / 2 ^ (-e).toNat

/-- `Math.floor((x / 1000) * dim)` evaluated as JS evaluates it, in IEEE-754
binary64: `x` and `dim` convert exactly (they are integers far below 2^53),
the division by 1000 rounds once to the nearest double, the multiplication by
`dim` rounds once more, and `Math.floor` is exact. This is a pure-integer
model of that double computation, exact on the ranges the agent uses; it is
checked against the divergences from the idealized `x * dim / 1000` below. -/
def jsFloorScale (dim x : Nat) : Nat :=
  let q := roundB64 x 1000
  let p :=
    if 0 ≤ q.2 then roundB64 (q.1 * dim * 2 ^ q.2.toNat) 1
    else roundB64 (q.1 * dim) (2 ^ (-q.2).toNat)
  dyadicFloor p.1 p.2

/-- `BrowserAgent.denormalizeX`: `Math.floor((x / 1000) * width)` in the
source's double-precision arithmetic (not the exact rational floor, from
which it diverges at some in-range inputs). -/
def denormalizeX (screenW x : Nat) : Nat :=
  jsFloorScale screenW x

/-- `BrowserAgent.denormalizeY`: `Math.floor((y / 1000) * height)` in the
source's double-precision arithmetic. -/
def denormalizeY (screenH y : Nat) : Nat :=
  jsFloorScale screenH y

/-- A concrete call into the `PlaywrightComputer` adapter, with coordinates
already denormalized to viewport pixels. -/
inductive BrowserCall where
  | openWebBrowser
  | clickAt (x y : Nat)
  | hoverAt (x y : Nat)
  | typeTextAt (x y : Nat) (text : String) (pressEnter clearBeforeTyping : Bool)
  | scrollDocument (direction : Option String)
  | scrollAt (x y : Nat) (direction : String) (magnitude : Nat)
  | wait5Seconds
  | goBack
  | goForward
  | search
  | navigate (url : String)
  | keyCombination (keys : List String)
  | dragAndDrop (x y destX destY : Nat)
deriving DecidableEq, Repr

/-- `BrowserAgent.handleAction`: dispatch a model command to a browser call,
denormalizing every coordinate argument with the live screen size, with the
source's `??` defaults for `magnitude`, `press_enter` and
`clear_before_typing`. A missing JS argument with no `??` default would reach
the driver as `undefined`/`NaN`; those junk cases are modelled by `getD`
defaults and are exercised by no claim. The `default:` branch and the unknown
scroll direction branch throw, modelled as `Except.error` with the source's
message (JS renders a missing name as the string `undefined`). -/
def handleAction (screenW screenH : Nat) (action : FunctionCall) :
    Except String BrowserCall :=
  let args := action.args
  if action.name = some "open_web_browser" then .ok .openWebBrowser
  else if action.name = some "click_at" then
    .ok (.clickAt (denormalizeX screenW (args.x.getD 0))
      (denormalizeY screenH (args.y.getD 0)))
  else if action.name = some "hover_at" then
    .ok (.hoverAt (denormalizeX screenW (args.x.getD 0))
      (denormalizeY screenH (args.y.getD 0)))
  else if action.name = some "type_text_at" then
    .ok (.typeTextAt (denormalizeX screenW (args.x.getD 0))
      (denormalizeY screenH (args.y.getD 0))
      (args.text.getD "") (args.press_enter.getD false)
      (args.clear_before_typing.getD true))
  else if action.name = some "scroll_document" then
    .ok (.scrollDocument args.direction)
  else if action.name = some "scroll_at" then
    let magnitude := args.magnitude.getD 800
    let px := denormalizeX screenW (args.x.getD 0)
    let py := denormalizeY screenH (args.y.getD 0)
    if args.direction = some "up" then
      .ok (.scrollAt px py "up" (denormalizeY screenH magnitude))
    else if args.direction = some "down" then
      .ok (.scrollAt px py "down" (denormalizeY screenH magnitude))
    else if args.direction = some "left" then
      .ok (.scrollAt px py "left" (denormalizeX screenW magnitude))
    else if args.direction = some "right" then
      .ok (.scrollAt px py "right" (denormalizeX screenW magnitude))
    else .error ("Unknown direction: " ++ args.direction.getD "undefined")
  else if action.name = some "wait_5_seconds" then .ok .wait5Seconds
  else if action.name = some "go_back" then .ok .goBack
  else if action.name = some "go_forward" then .ok .goForward
  else if action.name = some "search" then .ok .search
  else if action.name = some "navigate" then .ok (.navigate (args.url.getD ""))
  else if action.name = some "key_combination" then
    .ok (.keyCombination ((args.keys.getD "").splitOn "+"))
  else if action.name = some "drag_and_drop" then
    .ok (.dragAndDrop (denormalizeX screenW (args.x.getD 0))
      (denormalizeY screenH (args.y.getD 0))
      (denormalizeX screenW (args.destination_x.getD 0))
      (denormalizeY screenH (args.destination_y.getD 0)))
  else .error ("Unsupported function: " ++ action.name.getD "undefined")

/-- JS `String.prototype.startsWith`, stated on character lists so that proofs
can evaluate it (the builtin `String.startsWith` does not reduce in the
kernel). -/
def strStartsWith (s p : String) : Bool :=
  s.data.take p.data.length == p.data

/-- `PlaywrightComputer.navigate`: the url actually passed to `page.goto`,
after prepending `https://` to urls carrying neither an `http://` nor an
`https://` scheme marker. -/
def navigateTargetUrl (url : String) : String :=
  if !(strStartsWith url "http://") && !(strStartsWith url "https://") then
    "https://" ++ url
  else
    url

/-- `PlaywrightComputer.search` delegates to `navigate` with the configured
search-engine url. -/
def searchTargetUrl (searchEngineUrl : String) : String :=
  navigateTargetUrl searchEngineUrl

/-- `BrowserAgent.getText`: the (truthy) text parts of the candidate joined
with a single space, or `null` when there are none. -/
def getText (candidate : Candidate) : Option String :=
  match candidate.content with
  | none => none
  | some content =>
      match content.parts with
      | none => none
      | some ps =>
          let textParts := ps.filterMap fun p =>
            match p with
            | .text s => if s == "" then none else some s
            | _ => none
          if textParts.length > 0 then some (String.intercalate " " textParts) else none

/-- `BrowserAgent.extractFunctionCalls`: the function-call parts of the
candidate, in order. -/
def extractFunctionCalls (candidate : Candidate) : List FunctionCall :=
  match candidate.content with
  | none => []
  | some content =>
      match content.parts with
      | none => []
      | some ps =>
          ps.filterMap fun p =>
            match p with
            | .functionCall fc => some fc
            | _ => none

/-- Retry loop of `BrowserAgent.getModelResponse`. The endpoint oracle gives
each attempt's outcome (`Except.error` is a thrown transport error). Returns
the overall outcome plus the list of backoff delays (in seconds) actually
slept. `remaining` is `maxRetries - attempt`; the source retries only while
`attempt < maxRetries - 1` and rethrows the last error otherwise. -/
def getModelResponseAux (endpoint : Nat → Except String GenerateContentResponse)
    (baseDelayS : Nat) :
    Nat → Nat → Except String GenerateContentResponse × List Nat
  | 0, _ => (.error "Unexpected error in getModelResponse", [])
  | remaining + 1, attempt =>
      match endpoint attempt with
      | .ok r => (.ok r, [])
      | .error e =>
          if remaining == 0 then
            (.error e, [])
          else
            let rest := getModelResponseAux endpoint baseDelayS remaining (attempt + 1)
            (rest.1, baseDelayS * 2 ^ attempt :: rest.2)

/-- `BrowserAgent.getModelResponse` with its default `maxRetries = 5`,
`baseDelayS = 1` made explicit parameters. -/
def getModelResponse (endpoint : Nat → Except String GenerateContentResponse)
    (maxRetries baseDelayS : Nat) :
    Except String GenerateContentResponse × List Nat :=
  getModelResponseAux endpoint baseDelayS maxRetries 0

/-- Answer of the safety-confirmation hook. -/
inductive SafetyAnswer where
  | CONTINUE
  | TERMINATE
deriving DecidableEq, Repr

/-- `BrowserAgent._getSafetyConfirmation`: throws on an unknown decision,
otherwise auto-continues (the source's placeholder behavior). -/
def getSafetyConfirmation (safety : SafetyDecision) : Except String SafetyAnswer :=
  if safety.decision == "require_confirmation" then
    .ok .CONTINUE
  else
    .error ("Unknown safety decision: " ++ safety.decision)

/-- Result of a browser call as seen by `handleAction`'s caller: an `EnvState`
(screenshot bytes plus current url) or a custom record. -/
inductive FunctionResponseT where
  | envState (screenshot : String) (url : String)
  | record (data : String)
deriving DecidableEq, Repr

/-- The function-response part built by `runOneIteration` for one executed
call: `EnvState` results get a `{ url, ...ack }` response and an inline
`image/png` part; other results are passed through with no image part. -/
def buildFunctionResponsePart (fc : FunctionCall) (r : FunctionResponseT)
    (ack : Bool) : Part :=
  match r with
  | .envState shot url =>
      .functionResponse { name := fc.name, response := .urlResp url ack,
                          respParts := some [{ mimeType := "image/png", data := shot }] }
  | .record data =>
      .functionResponse { name := fc.name, response := .raw data, respParts := none }

/-- How the function-call execution loop of `runOneIteration` exits early:
an exception propagating out of the iteration, or the safety-decision
TERMINATE branch (which returns COMPLETE). -/
inductive ExecExit where
  | thrown (msg : String)
  | terminated
deriving DecidableEq, Repr

/-- The function-call execution loop of `runOneIteration`: for each call,
resolve any safety decision, dispatch through `handleAction`, execute through
the browser oracle, and collect the built function-response parts. The first
thrown error aborts the loop. -/
def execFunctionCalls (browser : BrowserCall → Except String FunctionResponseT)
    (screenW screenH : Nat) :
    List FunctionCall → Except ExecExit (List Part)
  | [] => .ok []
  | fc :: rest =>
      let ackStep : Except ExecExit Bool :=
        match fc.args.safety_decision with
        | none => .ok false
        | some sd =>
            match getSafetyConfirmation sd with
            | .error e => .error (.thrown e)
            | .ok .TERMINATE => .error .terminated
            | .ok .CONTINUE => .ok true
      match ackStep with
      | .error e => .error e
      | .ok ack =>
          match handleAction screenW screenH fc with
          | .error e => .error (.thrown e)
          | .ok call =>
              match browser call with
              | .error e => .error (.thrown e)
              | .ok result =>
                  match execFunctionCalls browser screenW screenH rest with
                  | .error e => .error e
                  | .ok tail => .ok (buildFunctionResponsePart fc result ack :: tail)

/-- The mutable state of a `BrowserAgent`: the conversation history and the
recorded final reasoning. -/
structure AgentState where
  contents : List Content
  finalReasoning : Option String
deriving DecidableEq, Repr

/-- The history the `BrowserAgent` constructor builds from the query. -/
def initialAgentState (query : String) : AgentState :=
  { contents := [{ role := "user", parts := some [.text query] }],
    finalReasoning := none }

/-- What `runOneIteration` hands back to its caller: the two documented loop
signals, or an exception escaping the method. -/
inductive StepResult where
  | COMPLETE
  | CONTINUE
  | threw (msg : String)
deriving DecidableEq, Repr

/-- The external world of one iteration: the per-attempt reasoning endpoint
outcomes, the browser driver, and the adapter's live screen size. -/
structure IterOracle where
  endpoint : Nat → Except String GenerateContentResponse
  browser : BrowserCall → Except String FunctionResponseT
  screenW : Nat
  screenH : Nat

/-- `BrowserAgent.runOneIteration`. Endpoint failure after all retries is
caught and returns COMPLETE; a response with no candidates throws
`Empty response`; the model turn is appended before command extraction; the
malformed-function-call case continues silently; zero commands otherwise
completes, recording the reasoning; command execution appends one user turn of
function responses and then prunes old screenshots. -/
def runOneIteration (o : IterOracle) (st : AgentState) : AgentState × StepResult :=
  match (getModelResponse o.endpoint 5 1).1 with
  | .error _ => (st, .COMPLETE)
  | .ok response =>
      match response.candidates with
      | none => (st, .threw "Empty response")
      | some [] => (st, .threw "Empty response")
      | some (candidate :: _) =>
          let st1 :=
            match candidate.content with
            | some content => { st with contents := st.contents ++ [content] }
            | none => st
          let reasoning := getText candidate
          let functionCalls := extractFunctionCalls candidate
          if functionCalls.isEmpty && reasoning.isNone &&
              candidate.finishReason == some .MALFORMED_FUNCTION_CALL then
            (st1, .CONTINUE)
          else if functionCalls.isEmpty then
            ({ st1 with finalReasoning := reasoning }, .COMPLETE)
          else
            match execFunctionCalls o.browser o.screenW o.screenH functionCalls with
            | .error .terminated => (st1, .COMPLETE)
            | .error (.thrown msg) => (st1, .threw msg)
            | .ok functionResponses =>
                let newContents :=
                  cleanupOldScreenshots
                    (st1.contents ++ [{ role := "user", parts := some functionResponses }])
                ({ st1 with contents := newContents }, .CONTINUE)

/-- JS whitespace test used by `String.prototype.trim` on the characters the
agent ever produces. -/
def isJsWhitespace (c : Char) : Bool :=
  c == ' ' || c == '\n' || c == '\t' || c == '\r'

/-- JS `String.prototype.trim`, stated on character lists so proofs can
evaluate it. -/
def strTrim (s : String) : String :=
  ⟨((s.data.dropWhile isJsWhitespace).reverse.dropWhile isJsWhitespace).reverse⟩

/-- `extractThoughts` from `worker.ts`: truthy text parts joined with a space,
trimmed; `null` when there are none. -/
def extractThoughts (content : Content) : Option String :=
  match content.parts with
  | none => none
  | some ps =>
      let textParts := ps.filterMap fun p =>
        match p with
        | .text s => if s == "" then none else some s
        | _ => none
      if textParts.length > 0 then some (strTrim (String.intercalate " " textParts))
      else none

/-- The `keyArgs` list built by `extractCommands` in `worker.ts` (truthiness
checks on strings, definedness checks on the coordinates). -/
def commandKeyArgs (a : FCArgs) : List String :=
  (match a.text with
   | some t => if t == "" then [] else ["\"" ++ t ++ "\""]
   | none => [])
  ++ (match a.url with
      | some u => if u == "" then [] else ["\"" ++ u ++ "\""]
      | none => [])
  ++ (match a.x, a.y with
      | some x, some y => ["(" ++ toString x ++ ", " ++ toString y ++ ")"]
      | _, _ => [])
  ++ (match a.direction with
      | some d => if d == "" then [] else [d]
      | none => [])
  ++ (match a.keys with
      | some k => if k == "" then [] else [k]
      | none => [])

/-- The descriptive command string `extractCommands` builds for one call. -/
def commandDescr (fc : FunctionCall) : String :=
  let keyArgs := commandKeyArgs fc.args
  let base := fc.name.getD "undefined"
  if keyArgs.length > 0 then base ++ ": " ++ String.intercalate ", " keyArgs else base

/-- `extractCommands` from `worker.ts`. -/
def extractCommands (content : Content) : List String :=
  match content.parts with
  | none => []
  | some ps =>
      ps.filterMap fun p =>
        match p with
        | .functionCall fc => some (commandDescr fc)
        | _ => none

/-- An `iteration` activity entry, as posted to the parent thread and stored by
`SessionManager.addIteration`. -/
structure AgentIteration where
  timestamp : Nat
  thoughts : String
  commands : List String
deriving DecidableEq, Repr

/-- The synthetic entry posted by the patched `runOneIteration`'s catch block
in `worker.ts`. -/
def recoveryEntry (ts : Nat) (msg : String) : AgentIteration :=
  { timestamp := ts,
    thoughts := "Error occurred: " ++ msg ++ ". Attempting to recover...",
    commands := ["(error recovery)"] }

/-- The last model/assistant turn the patched `runOneIteration` summarizes
(the source scans the history backwards and breaks at the first match). -/
def findLastModelTurn (cs : List Content) : Option Content :=
  cs.reverse.find? fun c => c.role == "model" || c.role == "assistant"

/-- The iteration summary the patched `runOneIteration` posts after a
successful inner call, when the last model turn has thoughts or commands
(JS falsy `thoughts` falls back to the placeholder). -/
def successEntry (ts : Nat) (cs : List Content) : Option AgentIteration :=
  match findLastModelTurn cs with
  | none => none
  | some content =>
      let t := match extractThoughts content with | some s => s | none => ""
      let commands := extractCommands content
      if !(t == "") || commands.length > 0 then
        some { timestamp := ts,
               thoughts := if t == "" then "(no reasoning provided)" else t,
               commands := commands }
      else none

/-- The `worker.ts` override of `runOneIteration`: run the original; on
success post the iteration summary and pass the signal through; on a thrown
error post a recovery entry carrying the error message and return CONTINUE.
`ts` stands for `Date.now()`; the third component lists the activity entries
posted to the parent. -/
def patchedRunOneIteration (o : IterOracle) (ts : Nat) (st : AgentState) :
    AgentState × StepResult × List AgentIteration :=
  match runOneIteration o st with
  | (st', .threw msg) => (st', .CONTINUE, [recoveryEntry ts msg])
  | (st', r) => (st', r, (successEntry ts st'.contents).toList)

/-- Why the fuel-free loop driver stopped. -/
inductive LoopEnd where
  | completed
  | outOfScript
deriving DecidableEq, Repr

/-- Driver of the worker's agent loop over a script of per-iteration oracles:
keep running patched iterations while they signal CONTINUE; stop on COMPLETE.
Collects every posted activity entry in order. -/
def runLoop : AgentState → List (IterOracle × Nat) →
    AgentState × List AgentIteration × LoopEnd
  | st, [] => (st, [], .outOfScript)
  | st, (o, ts) :: rest =>
      match patchedRunOneIteration o ts st with
      | (st', .COMPLETE, es) => (st', es, .completed)
      | (st', _, es) =>
          let r := runLoop st' rest
          (r.1, es ++ r.2.1, r.2.2)

/-- A log line as buffered by `SessionManager.addLog`. -/
structure LogEntry where
  timestamp : Nat
  level : String
  content : String
deriving DecidableEq, Repr

/-- A user-message activity entry of the `userMessages` buffer consumed by the
events route (its producer mirrors `addLog`/`addIteration`). -/
structure UserMessage where
  timestamp : Nat
  content : String
deriving DecidableEq, Repr

/-- One event flowing through a session's event hub. -/
inductive SessionEvent where
  | log (e : LogEntry)
  | screenshot (s : String)
  | state (s : String)
  | iteration (it : AgentIteration)
  | userMessage (m : UserMessage)
deriving DecidableEq, Repr

/-- The buffered per-session data the events route replays. -/
structure SessionBuf where
  logs : List LogEntry
  screenshots : List String
  iterations : List AgentIteration
  userMessages : List UserMessage
  state : String
deriving DecidableEq, Repr

/-- A fresh session's buffers, as built by `SessionManager.createSession`. -/
def initSessionBuf : SessionBuf :=
  { logs := [], screenshots := [], iterations := [], userMessages := [],
    state := "initializing" }

/-- `SessionManager.addLog` / `addScreenshot` / `addIteration` /
`addUserMessage` / `updateState`: push onto the matching buffer (state
overwrites instead) and emit the same event synchronously to every current
subscriber. -/
def applyEmit (buf : SessionBuf) : SessionEvent → SessionBuf
  | .log e => { buf with logs := buf.logs ++ [e] }
  | .screenshot s => { buf with screenshots := buf.screenshots ++ [s] }
  | .state s => { buf with state := s }
  | .iteration it => { buf with iterations := buf.iterations ++ [it] }
  | .userMessage m => { buf with userMessages := buf.userMessages ++ [m] }

/-- A sequence of hub emissions applied to a session's buffers. -/
def applyEmits (buf : SessionBuf) (es : List SessionEvent) : SessionBuf :=
  es.foldl applyEmit buf

/-- A tagged activity item: the events route merges user messages and
iterations before sorting them by timestamp. -/
inductive Activity where
  | userMsg (m : UserMessage)
  | iter (it : AgentIteration)
deriving DecidableEq, Repr

/-- Timestamp of an activity item (`a.data.timestamp` in the route's sort). -/
def Activity.timestamp : Activity → Nat
  | .userMsg m => m.timestamp
  | .iter it => it.timestamp

/-- Stable insertion behind every earlier-or-equal timestamp; folding it over
the merged list reproduces the stable JS `Array.prototype.sort` with
comparator `(a, b) => a.data.timestamp - b.data.timestamp`. -/
def insertByTs (a : Activity) : List Activity → List Activity
  | [] => [a]
  | b :: bs =>
      if b.timestamp ≤ a.timestamp then b :: insertByTs a bs else a :: b :: bs

/-- Stable sort of activities by timestamp. -/
def sortByTs (l : List Activity) : List Activity :=
  l.foldl (fun acc a => insertByTs a acc) []

/-- The merged, timestamp-sorted activity list the route replays. -/
def sortedActivities (buf : SessionBuf) : List Activity :=
  sortByTs (buf.userMessages.map .userMsg ++ buf.iterations.map .iter)

/-- An activity item as the hub event it is replayed as. -/
def Activity.toEvent : Activity → SessionEvent
  | .userMsg m => .userMessage m
  | .iter it => .iteration it

/-- The replay portion of the SSE route before the state snapshot: every
buffered log, then every buffered screenshot, then the merged activities in
timestamp order. -/
def replayCore (buf : SessionBuf) : List SessionEvent :=
  buf.logs.map .log
  ++ buf.screenshots.map .screenshot
  ++ (sortedActivities buf).map Activity.toEvent

/-- Everything the SSE route sends a newly attaching observer before any live
event: the buffered replay followed by a snapshot of the current state. -/
def replayEvents (buf : SessionBuf) : List SessionEvent :=
  replayCore buf ++ [.state buf.state]

/-- The stream an observer attaching after `pre` and staying for `post` sees:
the route's `start` callback replays the buffers and registers the live
listeners in one synchronous block, so the live portion is exactly the events
emitted afterwards. -/
def midObserverStream (pre post : List SessionEvent) : List SessionEvent :=
  replayEvents (applyEmits initSessionBuf pre) ++ post

/-- Event kinds that are buffered and replayed (state is only snapshotted). -/
def isBufferedKind : SessionEvent → Bool
  | .state _ => false
  | _ => true

/-- Log-event test, for order-preservation statements. -/
def isLogEvent : SessionEvent → Bool
  | .log _ => true
  | _ => false

/-- Screenshot-event test. -/
def isShotEvent : SessionEvent → Bool
  | .screenshot _ => true
  | _ => false

/-- Activity-event (iteration or user message) test. -/
def isActivityEvent : SessionEvent → Bool
  | .iteration _ => true
  | .userMessage _ => true
  | _ => false

/-- A session record as the finish-session route sees it. -/
structure SessionRec where
  state : String
  hasWorker : Bool
deriving DecidableEq, Repr

/-- Observable effects of one call to the finish-session route. -/
structure FinishEffects where
  status : Nat
  terminateSent : Bool
  stateSet : Option String
  cleanupScheduled : Bool
deriving DecidableEq, Repr

/-- The finish-session route: 404 for an unknown session; otherwise post
`terminate` to the worker (when one is attached), set the session state to
`terminated`, and schedule `deleteSession` after a short delay. -/
def finishSession (s : Option SessionRec) : Option SessionRec × FinishEffects :=
  match s with
  | none =>
      (none, { status := 404, terminateSent := false, stateSet := none,
               cleanupScheduled := false })
  | some sess =>
      (some { sess with state := "terminated" },
       { status := 200, terminateSent := sess.hasWorker,
         stateSet := some "terminated", cleanupScheduled := true })

/-- A snapshot of the worker thread as far as the `terminate` branch of its
message handler can observe or change it. `inFlightCommand` is ghost state:
true while a browser command awaited by the agent loop has not yet returned.
The handler runs on the same event loop while such a command is suspended, and
nothing in the branch synchronizes with the loop. -/
structure WorkerState where
  hasComputer : Bool
  shouldTerminate : Bool
  connectionReleases : Nat
  inFlightCommand : Bool
  exited : Bool
deriving DecidableEq, Repr

/-- The `terminate` branch of the `parentPort` message handler in `worker.ts`:
set `shouldTerminate`, then — when a computer exists — call `computer.stop()`
(counted by `connectionReleases`) and exit the process. No step waits for an
in-flight command to return. -/
def terminateHandler (w : WorkerState) : WorkerState :=
  let w1 := { w with shouldTerminate := true }
  if w1.hasComputer then
    { w1 with connectionReleases := w1.connectionReleases + 1, exited := true }
  else
    { w1 with exited := true }

/-- Non-image metadata of one conversation part: everything except
`functionResponse.parts`. -/
inductive PartMeta where
  | text (s : String)
  | functionCall (fc : FunctionCall)
  | functionResponse (name : Option String) (response : RespPayload)
deriving DecidableEq, Repr

/-- Projection of a part to its non-image metadata. -/
def partMeta : Part → PartMeta
  | .text s => .text s
  | .functionCall fc => .functionCall fc
  | .functionResponse fr => .functionResponse fr.name fr.response

/-- Projection of a turn to its non-image metadata. -/
def contentMeta (c : Content) : String × Option (List PartMeta) :=
  (c.role, c.parts.map (List.map partMeta))

/-- A predefined-function response part still carrying its inline image
payload. -/
def partHasPredefImage (p : Part) : Bool :=
  match p with
  | .functionResponse fr => partIsPredefFr p && fr.respParts.isSome
  | _ => false

/-- A screenshot turn that still retains an image payload. -/
def imageScreenshotTurn (c : Content) : Bool :=
  isScreenshotTurn c &&
    (match c.parts with
     | some ps => ps.any partHasPredefImage
     | none => false)

/-- Number of screenshot turns at positions `i` and later (the turn itself
included). -/
def ssCountFrom (cs : List Content) (i : Nat) : Nat :=
  (cs.drop i).countP isScreenshotTurn

/-- Default turn used with `List.getD` in index statements. -/
def dfltContent : Content :=
  { role := "", parts := none }

/-- Example screenshot turn: a user turn with one predefined-function response
carrying an image payload. -/
def exShot (s : String) : Content :=
  { role := "user",
    parts := some [.functionResponse
      { name := some "click_at", response := .urlResp "https://example.com" false,
        respParts := some [{ mimeType := "image/png", data := s }] }] }

/-- Example conversation history with five screenshot turns. -/
def exHist : List Content :=
  [{ role := "model", parts := some [.text "thinking"] },
   exShot "a", exShot "b", exShot "c", exShot "d", exShot "e"]

/-- Oracle whose endpoint fails on every attempt. -/
def c2FailOracle : IterOracle :=
  { endpoint := fun _ => .error "ECONNREFUSED",
    browser := fun _ => .ok (.record "{}"),
    screenW := 1440, screenH := 900 }

/-- Endpoint that fails twice, then succeeds. -/
def c2WitnessEndpoint : Nat → Except String GenerateContentResponse :=
  fun i => if i < 2 then .error "boom" else .ok { candidates := some [] }

/-- Candidate with reasoning text, zero commands, and the malformed
finish reason. -/
def c4Cand : Candidate :=
  { content := some { role := "model", parts := some [.text "All done."] },
    finishReason := some .MALFORMED_FUNCTION_CALL }

/-- Oracle delivering `c4Cand` on the first attempt. -/
def c4Oracle : IterOracle :=
  { endpoint := fun _ => .ok { candidates := some [c4Cand] },
    browser := fun _ => .ok (.record "{}"),
    screenW := 1440, screenH := 900 }

/-- Candidate with no content at all, zero commands, malformed finish. -/
def c4wCand : Candidate :=
  { content := some { role := "model", parts := some [] },
    finishReason := some .MALFORMED_FUNCTION_CALL }

/-- Oracle delivering `c4wCand` on the first attempt. -/
def c4wOracle : IterOracle :=
  { endpoint := fun _ => .ok { candidates := some [c4wCand] },
    browser := fun _ => .ok (.record "{}"),
    screenW := 1440, screenH := 900 }

/-- Candidate carrying one text part and a normal finish reason. -/
def c5Cand : Candidate :=
  { content := some { role := "model", parts := some [.text "Task finished."] },
    finishReason := some .STOP }

/-- Oracle delivering `c5Cand` on the first attempt. -/
def c5Oracle : IterOracle :=
  { endpoint := fun _ => .ok { candidates := some [c5Cand] },
    browser := fun _ => .ok (.record "{}"),
    screenW := 1440, screenH := 900 }

/-- Oracle whose endpoint returns a response with an empty candidate list. -/
def c9Oracle : IterOracle :=
  { endpoint := fun _ => .ok { candidates := some [] },
    browser := fun _ => .ok (.record "{}"),
    screenW := 1440, screenH := 900 }

/-- Oracle whose endpoint returns a normal completing reply. -/
def c9GoodOracle : IterOracle :=
  { endpoint := fun _ => .ok { candidates := some [c5Cand] },
    browser := fun _ => .ok (.record "{}"),
    screenW := 1440, screenH := 900 }

/-- The model turn containing a single command with an unrecognized name. -/
def c3Turn : Content :=
  { role := "model",
    parts := some [.functionCall { name := some "bogus" }] }

/-- Candidate issuing a single command with an unrecognized name. -/
def c3Cand : Candidate :=
  { content := some c3Turn, finishReason := some .STOP }

/-- Oracle delivering `c3Cand` on the first attempt. -/
def c3Oracle : IterOracle :=
  { endpoint := fun _ => .ok { candidates := some [c3Cand] },
    browser := fun _ => .ok (.record "{}"),
    screenW := 1440, screenH := 900 }

/-- Log payload of an event, when it is one. -/
def logOf : SessionEvent → Option LogEntry
  | .log e => some e
  | _ => none

/-- Screenshot payload of an event, when it is one. -/
def shotOf : SessionEvent → Option String
  | .screenshot s => some s
  | _ => none

/-- Iteration payload of an event, when it is one. -/
def iterOf : SessionEvent → Option AgentIteration
  | .iteration it => some it
  | _ => none

/-- User-message payload of an event, when it is one. -/
def msgOf : SessionEvent → Option UserMessage
  | .userMessage m => some m
  | _ => none

/-- User-message-event test. -/
def isMsgEvent : SessionEvent → Bool
  | .userMessage _ => true
  | _ => false

/-- Iteration-event test. -/
def isIterEvent : SessionEvent → Bool
  | .iteration _ => true
  | _ => false

/-- Timestamp comparison used by the activity sort. -/
def actLe (a b : Activity) : Prop :=
  a.timestamp ≤ b.timestamp

/-- First buffered log of the C7 counterexample. -/
def exLog1 : SessionEvent := .log { timestamp := 1, level := "info", content := "first" }

/-- Screenshot emitted between the two logs. -/
def exShot2 : SessionEvent := .screenshot "img"

/-- Second buffered log of the C7 counterexample. -/
def exLog3 : SessionEvent := .log { timestamp := 3, level := "info", content := "second" }

/-- Worker state with a browser command in flight when terminate arrives. -/
def c8Busy : WorkerState :=
  { hasComputer := true, shouldTerminate := false, connectionReleases := 0,
    inFlightCommand := true, exited := false }

lemma partHasPredefImage_stripPart (p : Part) :
    partHasPredefImage (stripPart p) = false := by
  cases p with
  | functionResponse fr =>
      by_cases h : partIsPredefFr (.functionResponse fr) = true
      · simp [stripPart, h, partHasPredefImage]
      · have h' : partIsPredefFr (.functionResponse fr) = false := by
          simpa using h
        simp [stripPart, h', partHasPredefImage]
  | text s => simp [stripPart, partHasPredefImage]
  | functionCall fc => simp [stripPart, partHasPredefImage]

lemma imageScreenshotTurn_stripContent (c : Content) :
    imageScreenshotTurn (stripContent c) = false := by
  unfold imageScreenshotTurn stripContent
  cases hp : c.parts with
  | none => simp
  | some ps =>
      simp [List.any_map, Function.comp]
      intro _
      intro p _
      exact partHasPredefImage_stripPart p

lemma partMeta_stripPart (p : Part) : partMeta (stripPart p) = partMeta p := by
  cases p with
  | functionResponse fr =>
      by_cases h : partIsPredefFr (.functionResponse fr) = true
      · simp [stripPart, h, partMeta]
      · simp [stripPart, h, partMeta]
  | text s => rfl
  | functionCall fc => rfl

lemma contentMeta_stripContent (c : Content) :
    contentMeta (stripContent c) = contentMeta c := by
  unfold contentMeta stripContent
  cases hp : c.parts with
  | none => simp
  | some ps => simp [List.map_map, Function.comp, partMeta_stripPart]

lemma length_cleanupRev (n : Nat) (l : List Content) :
    (cleanupRev n l).length = l.length := by
  induction l generalizing n with
  | nil => rfl
  | cons c rest ih =>
      by_cases h : isScreenshotTurn c = true
      · simp [cleanupRev, h, ih]
      · simp [cleanupRev, h, ih]

lemma length_cleanupOldScreenshots (cs : List Content) :
    (cleanupOldScreenshots cs).length = cs.length := by
  simp [cleanupOldScreenshots, length_cleanupRev]

lemma cleanupRev_getD (l : List Content) (n k : Nat) (h : k < l.length) :
    (cleanupRev n l).getD k dfltContent =
      if isScreenshotTurn (l.getD k dfltContent) = true ∧
          MAX_RECENT_TURN_WITH_SCREENSHOTS <
            n + (l.take (k + 1)).countP isScreenshotTurn then
        stripContent (l.getD k dfltContent)
      else
        l.getD k dfltContent := by
  induction l generalizing n k with
  | nil => simp at h
  | cons c rest ih =>
      by_cases hss : isScreenshotTurn c = true
      · cases k with
        | zero =>
            rw [show cleanupRev n (c :: rest) =
                (if n + 1 > MAX_RECENT_TURN_WITH_SCREENSHOTS then stripContent c
                 else c) :: cleanupRev (n + 1) rest from by
              simp [cleanupRev, hss]]
            rw [List.getD_cons_zero, List.getD_cons_zero, List.take_succ_cons,
              List.take_zero, List.countP_cons, List.countP_nil, if_pos hss]
            by_cases hn : MAX_RECENT_TURN_WITH_SCREENSHOTS < n + 1
            · rw [if_pos hn, if_pos ⟨hss, by omega⟩]
            · rw [if_neg hn, if_neg (by rintro ⟨-, hlt⟩; omega)]
        | succ k =>
            have hk : k < rest.length := by simpa using h
            rw [show cleanupRev n (c :: rest) =
                (if n + 1 > MAX_RECENT_TURN_WITH_SCREENSHOTS then stripContent c
                 else c) :: cleanupRev (n + 1) rest from by
              simp [cleanupRev, hss]]
            rw [List.getD_cons_succ, List.getD_cons_succ, List.take_succ_cons,
              List.countP_cons, if_pos hss]
            rw [ih (n + 1) k hk]
            refine if_congr (and_congr_right fun _ => ?_) rfl rfl
            omega
      · cases k with
        | zero =>
            rw [show cleanupRev n (c :: rest) = c :: cleanupRev n rest from by
              simp [cleanupRev, hss]]
            rw [List.getD_cons_zero, List.getD_cons_zero,
              if_neg (by rintro ⟨hc, -⟩; exact hss hc)]
        | succ k =>
            have hk : k < rest.length := by simpa using h
            rw [show cleanupRev n (c :: rest) = c :: cleanupRev n rest from by
              simp [cleanupRev, hss]]
            rw [List.getD_cons_succ, List.getD_cons_succ, List.take_succ_cons,
              List.countP_cons, if_neg hss]
            rw [ih n k hk]
            refine if_congr (and_congr_right fun _ => ?_) rfl rfl
            omega

lemma getD_reverse {α : Type} (l : List α) (i : Nat) (h : i < l.length) (d : α) :
    l.reverse.getD i d = l.getD (l.length - 1 - i) d := by
  rw [List.getD_eq_getElem _ _ (by simpa using h),
    List.getD_eq_getElem _ _ (by omega)]
  exact List.getElem_reverse (by simpa using h)

lemma cleanupOldScreenshots_getD (cs : List Content) (i : Nat)
    (h : i < cs.length) :
    (cleanupOldScreenshots cs).getD i dfltContent =
      if isScreenshotTurn (cs.getD i dfltContent) = true ∧
          MAX_RECENT_TURN_WITH_SCREENSHOTS < ssCountFrom cs i then
        stripContent (cs.getD i dfltContent)
      else
        cs.getD i dfltContent := by
  have hlen : (cleanupRev 0 cs.reverse).length = cs.length := by
    rw [length_cleanupRev, List.length_reverse]
  rw [cleanupOldScreenshots, getD_reverse _ _ (by omega), hlen]
  have hj : cs.length - 1 - i < cs.reverse.length := by
    rw [List.length_reverse]; omega
  rw [cleanupRev_getD _ _ _ hj]
  have hidx : cs.length - 1 - (cs.length - 1 - i) = i := by omega
  rw [getD_reverse _ _ (by omega), hidx]
  have htk : cs.length - 1 - i + 1 = cs.length - i := by omega
  rw [htk, List.take_reverse, List.countP_reverse]
  have hdr : cs.length - (cs.length - i) = i := by omega
  rw [hdr]
  rw [show (0 : Nat) + (cs.drop i).countP isScreenshotTurn =
    ssCountFrom cs i from by simp [ssCountFrom]]

lemma countP_cleanupRev_le (l : List Content) (n : Nat) :
    (cleanupRev n l).countP imageScreenshotTurn ≤
      MAX_RECENT_TURN_WITH_SCREENSHOTS - n := by
  induction l generalizing n with
  | nil => simp [cleanupRev]
  | cons c rest ih =>
      by_cases hss : isScreenshotTurn c = true
      · rw [show cleanupRev n (c :: rest) =
            (if n + 1 > MAX_RECENT_TURN_WITH_SCREENSHOTS then stripContent c
             else c) :: cleanupRev (n + 1) rest from by
          simp [cleanupRev, hss]]
        rw [List.countP_cons]
        by_cases hn : MAX_RECENT_TURN_WITH_SCREENSHOTS < n + 1
        · rw [if_pos hn]
          have := ih (n + 1)
          simp only [imageScreenshotTurn_stripContent, Bool.false_eq_true,
            if_false]
          omega
        · rw [if_neg hn]
          have := ih (n + 1)
          have hc : (if imageScreenshotTurn c = true then 1 else 0) ≤ 1 := by
            split <;> omega
          omega
      · rw [show cleanupRev n (c :: rest) = c :: cleanupRev n rest from by
          simp [cleanupRev, hss]]
        rw [List.countP_cons]
        have h0 : imageScreenshotTurn c = false := by
          have : isScreenshotTurn c = false := by
            simpa using hss
          simp [imageScreenshotTurn, this]
        rw [h0]
        simp only [Bool.false_eq_true, if_false]
        have := ih n
        omega

lemma countP_cleanupOldScreenshots_le (cs : List Content) :
    (cleanupOldScreenshots cs).countP imageScreenshotTurn ≤
      MAX_RECENT_TURN_WITH_SCREENSHOTS := by
  rw [cleanupOldScreenshots, List.countP_reverse]
  have := countP_cleanupRev_le cs.reverse 0
  omega

/-- C1: after `_cleanupOldScreenshots` runs on any conversation history, at
most `MAX_RECENT_TURN_WITH_SCREENSHOTS = 3` user-role turns containing a
command-result for a predefined browser function still retain an image
payload; the retained ones are exactly the (at most three) most recent such
turns, which are untouched; every older such turn is stripped — losing all
predefined-function image payloads — while its non-image metadata (role,
part structure, function names, url responses) is unchanged; non-screenshot
turns are untouched. -/
theorem history_prune_keeps_at_most_three_recent_images (cs : List Content) :
    (cleanupOldScreenshots cs).length = cs.length ∧
    (cleanupOldScreenshots cs).countP imageScreenshotTurn ≤
      MAX_RECENT_TURN_WITH_SCREENSHOTS ∧
    ∀ i, i < cs.length →
      contentMeta ((cleanupOldScreenshots cs).getD i dfltContent) =
          contentMeta (cs.getD i dfltContent) ∧
      (isScreenshotTurn (cs.getD i dfltContent) = true →
        MAX_RECENT_TURN_WITH_SCREENSHOTS < ssCountFrom cs i →
          (cleanupOldScreenshots cs).getD i dfltContent =
              stripContent (cs.getD i dfltContent) ∧
            imageScreenshotTurn ((cleanupOldScreenshots cs).getD i dfltContent) =
              false) ∧
      (isScreenshotTurn (cs.getD i dfltContent) = true →
        ssCountFrom cs i ≤ MAX_RECENT_TURN_WITH_SCREENSHOTS →
          (cleanupOldScreenshots cs).getD i dfltContent =
            cs.getD i dfltContent) ∧
      (isScreenshotTurn (cs.getD i dfltContent) = false →
          (cleanupOldScreenshots cs).getD i dfltContent =
            cs.getD i dfltContent) := by
  refine ⟨length_cleanupOldScreenshots cs, countP_cleanupOldScreenshots_le cs, ?_⟩
  intro i hi
  have hch := cleanupOldScreenshots_getD cs i hi
  refine ⟨?_, ?_, ?_, ?_⟩
  · rw [hch]
    split
    · exact contentMeta_stripContent _
    · rfl
  · intro hss hgt
    rw [hch, if_pos ⟨hss, hgt⟩]
    exact ⟨rfl, imageScreenshotTurn_stripContent _⟩
  · intro hss hle
    rw [hch, if_neg (by rintro ⟨-, hgt⟩; omega)]
  · intro hss
    rw [hch, if_neg (by
      rintro ⟨h1, -⟩
      rw [hss] at h1
      exact Bool.false_ne_true h1)]

/-- Witness for C1: in a history with five screenshot turns, the second-oldest
screenshot turn is stripped and the most recent one is untouched. -/
theorem history_prune_keeps_at_most_three_recent_images_witness :
    isScreenshotTurn (exHist.getD 1 dfltContent) = true ∧
    MAX_RECENT_TURN_WITH_SCREENSHOTS < ssCountFrom exHist 1 ∧
    (cleanupOldScreenshots exHist).getD 1 dfltContent =
      stripContent (exHist.getD 1 dfltContent) ∧
    (cleanupOldScreenshots exHist).getD 5 dfltContent =
      exHist.getD 5 dfltContent := by
  have h := history_prune_keeps_at_most_three_recent_images exHist
  exact ⟨by decide, by decide,
    ((h.2.2 1 (by decide)).2.1 (by decide) (by decide)).1,
    (h.2.2 5 (by decide)).2.2.1 (by decide) (by decide)⟩

/-- C6 counterexample: the executor's denormalization is the IEEE-754
double-precision evaluation of `Math.floor((x / 1000) * dimension)`, which is
not the exact rational floor the claim states: at normalized `x = 175` on the
program's 1440-wide viewport the double product `(175/1000)*1440` lands just
below 252, so the executor clicks at pixel 251 while
`floor(175 / 1000 * 1440) = 252`. -/
theorem denormalize_not_exact_floor_cex :
    denormalizeX 1440 175 = 251 ∧
    175 * 1440 / 1000 = 252 ∧
    denormalizeX 1440 175 ≠ 175 * 1440 / 1000 ∧
    handleAction 1440 900
        { name := some "click_at", args := { x := some 175, y := some 175 } } =
      .ok (.clickAt 251 157) := by
  exact ⟨by decide, by decide, by decide, rfl⟩

/-- C6 (amended): the executor scales every coordinate argument of every
command — click, hover, type-text, drag-and-drop, and scroll — through the
source's double-precision evaluation of `floor(normalized / 1000 *
dimension)` with the adapter's live screen size, and a `scroll_at` magnitude
is scaled on the axis matching its direction; normalized `(500, 500)` on a
`(1440, 900)` viewport gives exactly `(720, 450)`; but the double rounding
can land one below the exact rational floor: on the program's 1440-wide
viewport, normalized 175, 350, 575 and 700 give pixels 251, 503, 827 and 1007
where the exact floors are 252, 504, 828 and 1008. -/
theorem executor_denormalizes_coordinates :
    (∀ w h x y,
      handleAction w h
          { name := some "click_at", args := { x := some x, y := some y } } =
        .ok (.clickAt (denormalizeX w x) (denormalizeY h y))) ∧
    (∀ w h x y,
      handleAction w h
          { name := some "hover_at", args := { x := some x, y := some y } } =
        .ok (.hoverAt (denormalizeX w x) (denormalizeY h y))) ∧
    (∀ w h x y t pe cb,
      handleAction w h
          { name := some "type_text_at",
            args := { x := some x, y := some y, text := some t,
                      press_enter := some pe,
                      clear_before_typing := some cb } } =
        .ok (.typeTextAt (denormalizeX w x) (denormalizeY h y) t pe cb)) ∧
    (∀ w h x y dx dy,
      handleAction w h
          { name := some "drag_and_drop",
            args := { x := some x, y := some y, destination_x := some dx,
                      destination_y := some dy } } =
        .ok (.dragAndDrop (denormalizeX w x) (denormalizeY h y)
          (denormalizeX w dx) (denormalizeY h dy))) ∧
    denormalizeX 1440 500 = 720 ∧ denormalizeY 900 500 = 450 ∧
    denormalizeY 900 175 = 157 ∧ 175 * 900 / 1000 = 157 ∧
    denormalizeX 1440 175 = 251 ∧ 175 * 1440 / 1000 = 252 ∧
    denormalizeX 1440 350 = 503 ∧ 350 * 1440 / 1000 = 504 ∧
    denormalizeX 1440 575 = 827 ∧ 575 * 1440 / 1000 = 828 ∧
    denormalizeX 1440 700 = 1007 ∧ 700 * 1440 / 1000 = 1008 ∧
    (∀ w h x y m,
      handleAction w h
          { name := some "scroll_at",
            args := { x := some x, y := some y, direction := some "down",
                      magnitude := some m } } =
        .ok (.scrollAt (denormalizeX w x) (denormalizeY h y) "down"
          (denormalizeY h m))) ∧
    (∀ w h x y m,
      handleAction w h
          { name := some "scroll_at",
            args := { x := some x, y := some y, direction := some "up",
                      magnitude := some m } } =
        .ok (.scrollAt (denormalizeX w x) (denormalizeY h y) "up"
          (denormalizeY h m))) ∧
    (∀ w h x y m,
      handleAction w h
          { name := some "scroll_at",
            args := { x := some x, y := some y, direction := some "left",
                      magnitude := some m } } =
        .ok (.scrollAt (denormalizeX w x) (denormalizeY h y) "left"
          (denormalizeX w m))) ∧
    (∀ w h x y m,
      handleAction w h
          { name := some "scroll_at",
            args := { x := some x, y := some y, direction := some "right",
                      magnitude := some m } } =
        .ok (.scrollAt (denormalizeX w x) (denormalizeY h y) "right"
          (denormalizeX w m))) := by
  exact ⟨fun w h x y => rfl, fun w h x y => rfl, fun w h x y t pe cb => rfl,
    fun w h x y dx dy => rfl, by decide, by decide, by decide, by decide,
    by decide, by decide, by decide, by decide, by decide, by decide,
    by decide, by decide, fun w h x y m => rfl, fun w h x y m => rfl,
    fun w h x y m => rfl, fun w h x y m => rfl⟩

/-- C10: a url without an http/https scheme marker is navigated to with
`https://` prepended, a url already carrying one is navigated to unchanged,
and the search operation goes through the same normalization on the
configured search-engine url. -/
theorem navigate_prepends_https (url se : String) :
    (strStartsWith url "http://" = false → strStartsWith url "https://" = false →
      navigateTargetUrl url = "https://" ++ url) ∧
    (strStartsWith url "http://" = true → navigateTargetUrl url = url) ∧
    (strStartsWith url "https://" = true → navigateTargetUrl url = url) ∧
    searchTargetUrl se = navigateTargetUrl se := by
  refine ⟨?_, ?_, ?_, rfl⟩
  · intro h1 h2
    simp [navigateTargetUrl, h1, h2]
  · intro h1
    simp [navigateTargetUrl, h1]
  · intro h2
    simp [navigateTargetUrl, h2]

/-- Witness for C10 at a bare domain and at an https url. -/
theorem navigate_prepends_https_witness :
    navigateTargetUrl "metmuseum.org" = "https://metmuseum.org" ∧
    navigateTargetUrl "https://www.google.com" = "https://www.google.com" := by
  constructor
  · exact ((navigate_prepends_https "metmuseum.org" "x").1
      (by decide) (by decide)).trans (by decide)
  · exact (navigate_prepends_https "https://www.google.com" "x").2.2.1 (by decide)

lemma delays_cons (base attempt k : Nat) :
    base * 2 ^ attempt ::
        (List.range k).map (fun i => base * 2 ^ (attempt + 1 + i)) =
      (List.range (k + 1)).map fun i => base * 2 ^ (attempt + i) := by
  rw [List.range_succ_eq_map, List.map_cons, List.map_map]
  refine List.cons_eq_cons.mpr ⟨by norm_num, List.map_congr_left ?_⟩
  intro i _
  simp only [Function.comp_apply, Nat.succ_eq_add_one]
  rw [show attempt + 1 + i = attempt + (i + 1) from by omega]

lemma getModelResponseAux_ok
    (endpoint : Nat → Except String GenerateContentResponse) (base : Nat) :
    ∀ (k remaining attempt : Nat) (r : GenerateContentResponse),
      k < remaining →
      endpoint (attempt + k) = .ok r →
      (∀ i, i < k → ∃ e, endpoint (attempt + i) = .error e) →
      getModelResponseAux endpoint base remaining attempt =
        (.ok r, (List.range k).map fun i => base * 2 ^ (attempt + i)) := by
  intro k
  induction k with
  | zero =>
      intro remaining attempt r hk hok _
      match remaining, hk with
      | remaining + 1, _ =>
          rw [Nat.add_zero] at hok
          simp only [getModelResponseAux, hok, List.range_zero, List.map_nil]
  | succ k ih =>
      intro remaining attempt r hk hok herr
      match remaining, hk with
      | remaining + 1, hk =>
          obtain ⟨e, he⟩ := herr 0 (Nat.succ_pos k)
          rw [Nat.add_zero] at he
          have hrem : (remaining == 0) = false := by
            have : 0 < remaining := by omega
            simp [Nat.pos_iff_ne_zero.mp this]
          have hrec := ih remaining (attempt + 1) r (by omega)
            (by rw [show attempt + 1 + k = attempt + (k + 1) from by omega]
                exact hok)
            (fun i hi => by
              obtain ⟨e2, he2⟩ := herr (i + 1) (by omega)
              exact ⟨e2, by
                rw [show attempt + 1 + i = attempt + (i + 1) from by omega]
                exact he2⟩)
          simp only [getModelResponseAux, he, hrem, Bool.false_eq_true,
            if_false, hrec]
          exact congrArg _ (delays_cons base attempt k)

lemma getModelResponseAux_fail
    (endpoint : Nat → Except String GenerateContentResponse) (base : Nat) :
    ∀ (remaining attempt : Nat), 0 < remaining →
      (∀ i, i < remaining → ∃ e, endpoint (attempt + i) = .error e) →
      ∃ e,
        getModelResponseAux endpoint base remaining attempt =
          (.error e,
           (List.range (remaining - 1)).map fun i => base * 2 ^ (attempt + i)) ∧
        endpoint (attempt + (remaining - 1)) = .error e := by
  intro remaining
  induction remaining with
  | zero => intro attempt h; omega
  | succ rem ih =>
      intro attempt _ herr
      obtain ⟨e, he⟩ := herr 0 (Nat.succ_pos rem)
      rw [Nat.add_zero] at he
      cases rem with
      | zero =>
          refine ⟨e, ?_, by simpa using he⟩
          simp only [getModelResponseAux, he, Nat.sub_self, List.range_zero,
            List.map_nil]
          rfl
      | succ rem2 =>
          obtain ⟨e2, hrec, hlast⟩ := ih (attempt + 1) (Nat.succ_pos rem2)
            (fun i hi => by
              obtain ⟨e3, he3⟩ := herr (i + 1) (by omega)
              exact ⟨e3, by
                rw [show attempt + 1 + i = attempt + (i + 1) from by omega]
                exact he3⟩)
          have hrem : (rem2 + 1 == 0) = false := by simp
          refine ⟨e2, ?_, ?_⟩
          · rw [show getModelResponseAux endpoint base (rem2 + 1 + 1) attempt =
                (match endpoint attempt with
                 | .ok r => (.ok r, [])
                 | .error e =>
                     if rem2 + 1 == 0 then (.error e, [])
                     else
                       ((getModelResponseAux endpoint base (rem2 + 1)
                           (attempt + 1)).1,
                        base * 2 ^ attempt ::
                          (getModelResponseAux endpoint base (rem2 + 1)
                            (attempt + 1)).2)
                 : Except String GenerateContentResponse × List Nat) from rfl]
            rw [he]
            simp only [hrem, Bool.false_eq_true, if_false, hrec]
            rw [show rem2 + 1 + 1 - 1 = (rem2 + 1 - 1) + 1 from by omega]
            exact congrArg _ (delays_cons base attempt (rem2 + 1 - 1))
          · rw [show attempt + (rem2 + 1 + 1 - 1) =
              attempt + 1 + (rem2 + 1 - 1) from by omega]
            exact hlast

/-- C2 counterexample: with the reasoning endpoint failing on every retry, the
iteration catches the exhausted error and returns COMPLETE — the very signal
of normal task completion — with the agent state unchanged, and the loop
driver ends as `completed`; no FAILED/error outcome surfaces anywhere. -/
theorem retry_exhaustion_ends_as_normal_completion_cex :
    runOneIteration c2FailOracle (initialAgentState "find a picture") =
      (initialAgentState "find a picture", .COMPLETE) ∧
    runLoop (initialAgentState "find a picture") [(c2FailOracle, 0)] =
      (initialAgentState "find a picture", [], .completed) ∧
    StepResult.COMPLETE ≠ StepResult.threw "ECONNREFUSED" := by
  refine ⟨rfl, rfl, by decide⟩

/-- C2 (amended): `getModelResponse` retries with exponential backoff — a
success at attempt `k` is returned after sleeping `base * 2 ^ i` seconds for
each failed attempt `i < k`, and when every attempt up to `maxRetries` fails
the last error is rethrown after `maxRetries - 1` doubling delays — but when
all attempts fail, `runOneIteration` catches the error and returns COMPLETE
(the normal-completion signal) with the state unchanged, rather than a
FAILED/error outcome. -/
theorem model_retry_backoff_and_exhaustion :
    (∀ (endpoint : Nat → Except String GenerateContentResponse)
        (base maxRetries k : Nat) (r : GenerateContentResponse),
      k < maxRetries → endpoint k = .ok r →
      (∀ i, i < k → ∃ e, endpoint i = .error e) →
      getModelResponse endpoint maxRetries base =
        (.ok r, (List.range k).map fun i => base * 2 ^ i)) ∧
    (∀ (endpoint : Nat → Except String GenerateContentResponse)
        (base maxRetries : Nat), 0 < maxRetries →
      (∀ i, i < maxRetries → ∃ e, endpoint i = .error e) →
      ∃ e,
        getModelResponse endpoint maxRetries base =
          (.error e, (List.range (maxRetries - 1)).map fun i => base * 2 ^ i) ∧
        endpoint (maxRetries - 1) = .error e) ∧
    (∀ (o : IterOracle) (st : AgentState),
      (∀ i, i < 5 → ∃ e, o.endpoint i = .error e) →
      runOneIteration o st = (st, .COMPLETE)) := by
  refine ⟨?_, ?_, ?_⟩
  · intro endpoint base maxRetries k r hk hok herr
    have h := getModelResponseAux_ok endpoint base k maxRetries 0 r hk
      (by simpa using hok) (fun i hi => by simpa using herr i hi)
    rw [getModelResponse, h]
    exact congrArg _ (List.map_congr_left fun i _ => by rw [Nat.zero_add])
  · intro endpoint base maxRetries hpos herr
    obtain ⟨e, heq, hlast⟩ := getModelResponseAux_fail endpoint base maxRetries 0
      hpos (fun i hi => by simpa using herr i hi)
    refine ⟨e, ?_, by simpa using hlast⟩
    rw [getModelResponse, heq]
    exact congrArg _ (List.map_congr_left fun i _ => by rw [Nat.zero_add])
  · intro o st herr
    obtain ⟨e, heq, -⟩ := getModelResponseAux_fail o.endpoint 1 5 0 (by omega)
      (fun i hi => by simpa using herr i hi)
    unfold runOneIteration
    rw [show getModelResponse o.endpoint 5 1 = (.error e,
      (List.range (5 - 1)).map fun i => 1 * 2 ^ (0 + i)) from heq]

/-- Witness for C2: two failures then a success yield the response after
backoff delays of 1 and 2 seconds; and a fully failing endpoint makes the
iteration return COMPLETE. -/
theorem model_retry_backoff_and_exhaustion_witness :
    getModelResponse c2WitnessEndpoint 5 1 =
      (.ok { candidates := some [] }, [1, 2]) ∧
    runOneIteration c2FailOracle (initialAgentState "q") =
      (initialAgentState "q", .COMPLETE) := by
  constructor
  · have h := model_retry_backoff_and_exhaustion.1 c2WitnessEndpoint 1 5 2
      { candidates := some [] } (by omega) rfl
      (fun i hi => ⟨"boom", by interval_cases i <;> rfl⟩)
    rw [h]
    rfl
  · exact model_retry_backoff_and_exhaustion.2.2 c2FailOracle
      (initialAgentState "q") (fun i _ => ⟨"ECONNREFUSED", rfl⟩)

/-- C4 counterexample: a reply with zero commands and the malformed finish
reason, but carrying reasoning text, COMPLETES the task (the retry branch
additionally requires the extracted reasoning to be null), recording the text
as the final reasoning. -/
theorem malformed_reply_with_text_completes_cex :
    extractFunctionCalls c4Cand = [] ∧
    c4Cand.finishReason = some .MALFORMED_FUNCTION_CALL ∧
    runOneIteration c4Oracle (initialAgentState "task") =
      ({ contents := [{ role := "user", parts := some [.text "task"] },
                      { role := "model", parts := some [.text "All done."] }],
         finalReasoning := some "All done." }, .COMPLETE) := by
  exact ⟨rfl, rfl, rfl⟩

/-- C4 (amended): a reply with zero commands, NO reasoning text, and the
malformed finish reason does not complete the task: the iteration returns
CONTINUE with the malformed reply appended to the history (when it carries
content) and the final reasoning untouched, and the worker loop then issues
the next scripted iteration on that appended history. -/
theorem malformed_reply_without_text_retries (o : IterOracle) (st : AgentState)
    (resp : GenerateContentResponse) (cand : Candidate) (more : List Candidate)
    (hresp : (getModelResponse o.endpoint 5 1).1 = .ok resp)
    (hcand : resp.candidates = some (cand :: more))
    (hfc : extractFunctionCalls cand = [])
    (ht : getText cand = none)
    (hfin : cand.finishReason = some .MALFORMED_FUNCTION_CALL) :
    runOneIteration o st =
      ({ st with contents := st.contents ++ cand.content.toList }, .CONTINUE) ∧
    ∀ ts rest,
      runLoop st ((o, ts) :: rest) =
        ((runLoop { st with contents := st.contents ++ cand.content.toList }
            rest).1,
         (successEntry ts (st.contents ++ cand.content.toList)).toList ++
           (runLoop { st with contents := st.contents ++ cand.content.toList }
             rest).2.1,
         (runLoop { st with contents := st.contents ++ cand.content.toList }
           rest).2.2) := by
  have hstep : runOneIteration o st =
      ({ st with contents := st.contents ++ cand.content.toList }, .CONTINUE) := by
    unfold runOneIteration
    rw [hresp]
    simp only [hcand, hfc, ht, hfin, List.isEmpty_nil, Option.isNone_none,
      Bool.and_self, beq_self_eq_true, Bool.and_true, if_true]
    cases hc : cand.content with
    | none => simp [hc]
    | some ct => simp [hc]
  refine ⟨hstep, ?_⟩
  intro ts rest
  simp only [runLoop, patchedRunOneIteration, hstep]

/-- Witness for the amended C4 at a concrete text-free malformed reply. -/
theorem malformed_reply_without_text_retries_witness :
    runOneIteration c4wOracle (initialAgentState "task") =
      ({ contents := [{ role := "user", parts := some [.text "task"] },
                      { role := "model", parts := some [] }],
         finalReasoning := none }, .CONTINUE) := by
  exact (malformed_reply_without_text_retries c4wOracle (initialAgentState "task")
    { candidates := some [c4wCand] } c4wCand [] rfl rfl rfl rfl rfl).1

/-- C5: a reply with zero commands and a non-malformed finish reason completes
the task: the iteration signals COMPLETE and records the extracted reasoning
as `finalReasoning`; when the reply consists of exactly one nonempty text
part, that text is preserved verbatim. -/
theorem no_commands_completes_with_reasoning (o : IterOracle) (st : AgentState)
    (resp : GenerateContentResponse) (cand : Candidate) (more : List Candidate)
    (hresp : (getModelResponse o.endpoint 5 1).1 = .ok resp)
    (hcand : resp.candidates = some (cand :: more))
    (hfc : extractFunctionCalls cand = [])
    (hfin : cand.finishReason ≠ some .MALFORMED_FUNCTION_CALL) :
    runOneIteration o st =
      ({ contents := st.contents ++ cand.content.toList,
         finalReasoning := getText cand }, .COMPLETE) ∧
    (∀ r t, t ≠ "" →
      cand.content = some { role := r, parts := some [.text t] } →
      getText cand = some t) := by
  constructor
  · have hfin' : (cand.finishReason == some .MALFORMED_FUNCTION_CALL) = false := by
      simpa using hfin
    unfold runOneIteration
    rw [hresp]
    simp only [hcand, hfc, hfin', List.isEmpty_nil, Bool.true_and,
      Bool.and_false, Bool.false_eq_true, if_false, if_true]
    cases hc : cand.content with
    | none => simp [hc]
    | some ct => simp [hc]
  · intro r t ht hc
    have hgt : getText cand = some (" ".intercalate [t]) := by
      simp [getText, hc, ht]
    exact hgt.trans rfl

/-- Witness for C5: the single text part is preserved verbatim as the final
reasoning and the iteration completes. -/
theorem no_commands_completes_with_reasoning_witness :
    runOneIteration c5Oracle (initialAgentState "task") =
      ({ contents := [{ role := "user", parts := some [.text "task"] },
                      { role := "model",
                        parts := some [.text "Task finished."] }],
         finalReasoning := some "Task finished." }, .COMPLETE) := by
  have h := no_commands_completes_with_reasoning c5Oracle
    (initialAgentState "task") { candidates := some [c5Cand] } c5Cand []
    rfl rfl rfl (by decide)
  have hv := h.2 "model" "Task finished." (by decide) rfl
  have h1 := h.1
  rw [hv] at h1
  exact h1

/-- C9 counterexample: a zero-candidates response makes the iteration throw,
but the worker's patched iteration catches it, posts a recovery entry, and
returns CONTINUE; with a normal reply on the next scripted iteration the task
then ends `completed` — the session never surfaces an error state for the
zero-candidate response. -/
theorem empty_candidates_recovers_not_error_cex :
    patchedRunOneIteration c9Oracle 7 (initialAgentState "task") =
      (initialAgentState "task", .CONTINUE,
       [recoveryEntry 7 "Empty response"]) ∧
    runLoop (initialAgentState "task") [(c9Oracle, 7), (c9GoodOracle, 8)] =
      ({ contents := [{ role := "user", parts := some [.text "task"] },
                      { role := "model",
                        parts := some [.text "Task finished."] }],
         finalReasoning := some "Task finished." },
       [recoveryEntry 7 "Empty response",
        { timestamp := 8, thoughts := "Task finished.", commands := [] }],
       .completed) := by
  exact ⟨rfl, rfl⟩

/-- C9 (amended): a response with zero candidates is rejected — the iteration
throws `Empty response` without appending or processing anything — but in the
worker the patched iteration converts the throw into a recovery activity entry
and CONTINUE, so the loop proceeds instead of surfacing an error state. -/
theorem empty_candidates_throws_and_loop_recovers (o : IterOracle)
    (st : AgentState) (resp : GenerateContentResponse)
    (hresp : (getModelResponse o.endpoint 5 1).1 = .ok resp)
    (hcand : resp.candidates = none ∨ resp.candidates = some []) :
    runOneIteration o st = (st, .threw "Empty response") ∧
    (∀ ts, patchedRunOneIteration o ts st =
      (st, .CONTINUE, [recoveryEntry ts "Empty response"])) ∧
    (∀ ts rest, runLoop st ((o, ts) :: rest) =
      ((runLoop st rest).1,
       recoveryEntry ts "Empty response" :: (runLoop st rest).2.1,
       (runLoop st rest).2.2)) := by
  have hstep : runOneIteration o st = (st, .threw "Empty response") := by
    unfold runOneIteration
    rw [hresp]
    cases hcand with
    | inl h => simp [h]
    | inr h => simp [h]
  refine ⟨hstep, ?_, ?_⟩
  · intro ts
    simp only [patchedRunOneIteration, hstep]
  · intro ts rest
    simp only [runLoop, patchedRunOneIteration, hstep, List.singleton_append]

/-- Witness for the amended C9 at the concrete empty-candidates oracle. -/
theorem empty_candidates_throws_and_loop_recovers_witness :
    runOneIteration c9Oracle (initialAgentState "task") =
      (initialAgentState "task", .threw "Empty response") ∧
    patchedRunOneIteration c9Oracle 3 (initialAgentState "task") =
      (initialAgentState "task", .CONTINUE,
       [recoveryEntry 3 "Empty response"]) := by
  have h := empty_candidates_throws_and_loop_recovers c9Oracle
    (initialAgentState "task") { candidates := some [] } rfl (Or.inr rfl)
  exact ⟨h.1, h.2.1 3⟩

set_option maxHeartbeats 1600000 in
lemma handleAction_unsupported (w h : Nat) (name : String) (args : FCArgs)
    (hcontains : PREDEFINED_COMPUTER_USE_FUNCTIONS.contains name = false) :
    handleAction w h { name := some name, args := args } =
      .error ("Unsupported function: " ++ name) := by
  have hn : name ∉ PREDEFINED_COMPUTER_USE_FUNCTIONS := by
    simpa using hcontains
  have key : ∀ lit : String, lit ∈ PREDEFINED_COMPUTER_USE_FUNCTIONS →
      ((some name : Option String) = some lit) = False := by
    intro lit hl
    simp only [eq_iff_iff, iff_false]
    intro he
    injection he with he2
    exact hn (he2 ▸ hl)
  unfold handleAction
  dsimp only
  simp only [key "open_web_browser" (by decide), key "click_at" (by decide),
    key "hover_at" (by decide), key "type_text_at" (by decide),
    key "scroll_document" (by decide), key "scroll_at" (by decide),
    key "wait_5_seconds" (by decide), key "go_back" (by decide),
    key "go_forward" (by decide), key "search" (by decide),
    key "navigate" (by decide), key "key_combination" (by decide),
    key "drag_and_drop" (by decide), if_false]
  rfl

/-- C3: a command whose execution throws — including a command with an
unrecognized name, which fails with the unsupported-command error — is caught
at the iteration boundary by the worker's patched `runOneIteration`: a
synthetic recovery activity entry containing the triggering error message is
posted, the iteration returns CONTINUE, and the loop driver proceeds with the
next iteration instead of terminating. -/
theorem thrown_command_recovers_and_loop_continues :
    (∀ (w h : Nat) (name : String) (args : FCArgs),
      PREDEFINED_COMPUTER_USE_FUNCTIONS.contains name = false →
      handleAction w h { name := some name, args := args } =
        .error ("Unsupported function: " ++ name)) ∧
    (∀ (browser : BrowserCall → Except String FunctionResponseT)
        (w h : Nat) (name : String) (args : FCArgs) (rest : List FunctionCall),
      PREDEFINED_COMPUTER_USE_FUNCTIONS.contains name = false →
      args.safety_decision = none →
      execFunctionCalls browser w h ({ name := some name, args := args } :: rest) =
        .error (.thrown ("Unsupported function: " ++ name))) ∧
    (∀ (o : IterOracle) (st st' : AgentState) (msg : String) (ts : Nat),
      runOneIteration o st = (st', .threw msg) →
      patchedRunOneIteration o ts st =
        (st', .CONTINUE, [recoveryEntry ts msg]) ∧
      (recoveryEntry ts msg).thoughts =
        "Error occurred: " ++ msg ++ ". Attempting to recover..." ∧
      ∀ rest, runLoop st ((o, ts) :: rest) =
        ((runLoop st' rest).1,
         recoveryEntry ts msg :: (runLoop st' rest).2.1,
         (runLoop st' rest).2.2)) := by
  refine ⟨handleAction_unsupported, ?_, ?_⟩
  · intro browser w h name args rest hcontains hsafety
    simp only [execFunctionCalls, hsafety,
      handleAction_unsupported w h name args hcontains]
  · intro o st st' msg ts hstep
    refine ⟨?_, rfl, ?_⟩
    · simp only [patchedRunOneIteration, hstep]
    · intro rest
      simp only [runLoop, patchedRunOneIteration, hstep, List.singleton_append]

/-- Witness for C3: the unrecognized command `bogus` throws the
unsupported-command error, the patched iteration posts the recovery entry and
continues. -/
theorem thrown_command_recovers_and_loop_continues_witness :
    handleAction 1440 900 { name := some "bogus", args := {} } =
      .error ("Unsupported function: " ++ "bogus") ∧
    patchedRunOneIteration c3Oracle 9 (initialAgentState "task") =
      ({ contents := [{ role := "user", parts := some [.text "task"] }, c3Turn],
         finalReasoning := none },
       .CONTINUE, [recoveryEntry 9 "Unsupported function: bogus"]) := by
  constructor
  · exact thrown_command_recovers_and_loop_continues.1 1440 900 "bogus" {}
      (by decide)
  · exact (thrown_command_recovers_and_loop_continues.2.2 c3Oracle
      (initialAgentState "task")
      { contents := [{ role := "user", parts := some [.text "task"] }, c3Turn],
        finalReasoning := none }
      "Unsupported function: bogus" 9 (by decide)).1

lemma applyEmits_fields (es : List SessionEvent) (buf : SessionBuf) :
    (applyEmits buf es).logs = buf.logs ++ es.filterMap logOf ∧
    (applyEmits buf es).screenshots = buf.screenshots ++ es.filterMap shotOf ∧
    (applyEmits buf es).iterations = buf.iterations ++ es.filterMap iterOf ∧
    (applyEmits buf es).userMessages = buf.userMessages ++ es.filterMap msgOf := by
  induction es generalizing buf with
  | nil => simp [applyEmits]
  | cons e rest ih =>
      have h := ih (applyEmit buf e)
      cases e <;>
        simpa [applyEmits, applyEmit, logOf, shotOf, iterOf, msgOf,
          List.append_assoc] using h

lemma map_log_filterMap (es : List SessionEvent) :
    (es.filterMap logOf).map SessionEvent.log = es.filter isLogEvent := by
  induction es with
  | nil => rfl
  | cons e rest ih => cases e <;> simp [logOf, isLogEvent, ih]

lemma map_shot_filterMap (es : List SessionEvent) :
    (es.filterMap shotOf).map SessionEvent.screenshot = es.filter isShotEvent := by
  induction es with
  | nil => rfl
  | cons e rest ih => cases e <;> simp [shotOf, isShotEvent, ih]

lemma map_iter_filterMap (es : List SessionEvent) :
    ((es.filterMap iterOf).map Activity.iter).map Activity.toEvent =
      es.filter isIterEvent := by
  induction es with
  | nil => rfl
  | cons e rest ih => cases e <;> simp [iterOf, isIterEvent, Activity.toEvent, ih]

lemma map_msg_filterMap (es : List SessionEvent) :
    ((es.filterMap msgOf).map Activity.userMsg).map Activity.toEvent =
      es.filter isMsgEvent := by
  induction es with
  | nil => rfl
  | cons e rest ih => cases e <;> simp [msgOf, isMsgEvent, Activity.toEvent, ih]

lemma insertByTs_perm (a : Activity) (l : List Activity) :
    (insertByTs a l).Perm (a :: l) := by
  induction l with
  | nil => exact List.Perm.refl _
  | cons b bs ih =>
      by_cases hle : b.timestamp ≤ a.timestamp
      · simp only [insertByTs, if_pos hle]
        exact (ih.cons b).trans (List.Perm.swap a b bs)
      · simp only [insertByTs, if_neg hle]
        exact List.Perm.refl _

lemma sortByTs_foldl_perm (l : List Activity) :
    ∀ acc : List Activity,
      (l.foldl (fun acc a => insertByTs a acc) acc).Perm (acc ++ l) := by
  induction l with
  | nil => intro acc; simp
  | cons a rest ih =>
      intro acc
      have h1 := ih (insertByTs a acc)
      have h2 : (insertByTs a acc ++ rest).Perm (acc ++ a :: rest) :=
        ((insertByTs_perm a acc).append_right rest).trans
          List.perm_middle.symm
      exact h1.trans h2

lemma sortByTs_perm (l : List Activity) : (sortByTs l).Perm l := by
  simpa using sortByTs_foldl_perm l []

lemma insertByTs_pairwise (a : Activity) (l : List Activity)
    (h : l.Pairwise actLe) : (insertByTs a l).Pairwise actLe := by
  induction l with
  | nil => simp [insertByTs, actLe]
  | cons b bs ih =>
      rcases List.pairwise_cons.mp h with ⟨hb, hbs⟩
      by_cases hle : b.timestamp ≤ a.timestamp
      · simp only [insertByTs, if_pos hle]
        refine List.pairwise_cons.mpr ⟨?_, ih hbs⟩
        intro c hc
        rcases List.mem_cons.mp (((insertByTs_perm a bs).mem_iff).mp hc)
          with hc | hc
        · subst hc
          exact hle
        · exact hb c hc
      · simp only [insertByTs, if_neg hle]
        refine List.pairwise_cons.mpr ⟨?_, h⟩
        intro c hc
        rcases List.mem_cons.mp hc with hc | hc
        · subst hc
          exact Nat.le_of_lt (Nat.lt_of_not_le hle)
        · exact Nat.le_trans (Nat.le_of_lt (Nat.lt_of_not_le hle)) (hb c hc)

lemma sortByTs_foldl_pairwise (l : List Activity) :
    ∀ acc : List Activity, acc.Pairwise actLe →
      (l.foldl (fun acc a => insertByTs a acc) acc).Pairwise actLe := by
  induction l with
  | nil => intro acc h; simpa using h
  | cons a rest ih =>
      intro acc h
      exact ih (insertByTs a acc) (insertByTs_pairwise a acc h)

lemma sortByTs_pairwise (l : List Activity) : (sortByTs l).Pairwise actLe :=
  sortByTs_foldl_pairwise l [] (List.Pairwise.nil)

lemma four_filters_perm (es : List SessionEvent) :
    (es.filter isLogEvent ++ (es.filter isShotEvent ++
        (es.filter isMsgEvent ++ es.filter isIterEvent))).Perm
      (es.filter isBufferedKind) := by
  induction es with
  | nil => simp
  | cons e rest ih =>
      cases e with
      | log a =>
          simp only [List.filter_cons, isLogEvent, isShotEvent, isMsgEvent,
            isIterEvent, isBufferedKind, if_true, if_false, Bool.false_eq_true,
            List.cons_append]
          exact ih.cons _
      | state a =>
          simpa [List.filter_cons, isLogEvent, isShotEvent, isMsgEvent,
            isIterEvent, isBufferedKind] using ih
      | screenshot a =>
          simp only [List.filter_cons, isLogEvent, isShotEvent, isMsgEvent,
            isIterEvent, isBufferedKind, if_true, if_false, Bool.false_eq_true,
            List.cons_append]
          exact List.perm_middle.trans (ih.cons _)
      | userMessage a =>
          simp only [List.filter_cons, isLogEvent, isShotEvent, isMsgEvent,
            isIterEvent, isBufferedKind, if_true, if_false, Bool.false_eq_true,
            List.cons_append]
          refine ((List.Perm.append_left _ List.perm_middle).trans
            List.perm_middle).trans (ih.cons _)
      | iteration a =>
          simp only [List.filter_cons, isLogEvent, isShotEvent, isMsgEvent,
            isIterEvent, isBufferedKind, if_true, if_false, Bool.false_eq_true,
            List.cons_append]
          refine ((List.Perm.append_left _
            ((List.Perm.append_left _ List.perm_middle).trans
              List.perm_middle)).trans List.perm_middle).trans (ih.cons _)

lemma toEvent_not_log (a : Activity) : isLogEvent a.toEvent = false := by
  cases a <;> rfl

lemma toEvent_not_shot (a : Activity) : isShotEvent a.toEvent = false := by
  cases a <;> rfl

lemma filter_shot_of_logs (es : List SessionEvent) :
    (es.filter isLogEvent).filter isShotEvent = [] := by
  induction es with
  | nil => rfl
  | cons e rest ih => cases e <;> simpa [isShotEvent, isLogEvent] using ih

lemma filter_log_of_shots (es : List SessionEvent) :
    (es.filter isShotEvent).filter isLogEvent = [] := by
  induction es with
  | nil => rfl
  | cons e rest ih => cases e <;> simpa [isShotEvent, isLogEvent] using ih

lemma msg_iter_filters_perm (es : List SessionEvent) :
    (es.filter isMsgEvent ++ es.filter isIterEvent).Perm
      (es.filter isActivityEvent) := by
  induction es with
  | nil => simp
  | cons e rest ih =>
      cases e <;>
        simp only [List.filter_cons, isMsgEvent, isIterEvent,
          isActivityEvent, if_true, if_false, Bool.false_eq_true,
          List.cons_append] <;>
        first
          | exact ih.cons _
          | exact List.perm_middle.trans (ih.cons _)
          | exact ih

/-- C7 (amended): attaching mid-task, an observer receives the buffered replay
followed exactly by the later live events; the replay delivers every buffered
log, screenshot and activity event exactly once (a permutation of the
buffered-kind events emitted before attachment — no duplicates, no gaps), with
the logs in emission order, the screenshots in emission order, and the merged
activities sorted by timestamp; but the three categories are grouped, not
interleaved in global emission order. -/
theorem observer_replay_grouped_then_live (pre post : List SessionEvent) :
    midObserverStream pre post =
      replayEvents (applyEmits initSessionBuf pre) ++ post ∧
    (replayCore (applyEmits initSessionBuf pre)).Perm
      (pre.filter isBufferedKind) ∧
    (replayCore (applyEmits initSessionBuf pre)).filter isLogEvent =
      pre.filter isLogEvent ∧
    (replayCore (applyEmits initSessionBuf pre)).filter isShotEvent =
      pre.filter isShotEvent ∧
    (sortedActivities (applyEmits initSessionBuf pre)).Pairwise actLe ∧
    ((sortedActivities (applyEmits initSessionBuf pre)).map
        Activity.toEvent).Perm (pre.filter isActivityEvent) := by
  have hl : (applyEmits initSessionBuf pre).logs = pre.filterMap logOf := by
    simpa [initSessionBuf] using (applyEmits_fields pre initSessionBuf).1
  have hs : (applyEmits initSessionBuf pre).screenshots =
      pre.filterMap shotOf := by
    simpa [initSessionBuf] using (applyEmits_fields pre initSessionBuf).2.1
  have hi : (applyEmits initSessionBuf pre).iterations =
      pre.filterMap iterOf := by
    simpa [initSessionBuf] using (applyEmits_fields pre initSessionBuf).2.2.1
  have hm : (applyEmits initSessionBuf pre).userMessages =
      pre.filterMap msgOf := by
    simpa [initSessionBuf] using (applyEmits_fields pre initSessionBuf).2.2.2
  have e1 : (applyEmits initSessionBuf pre).logs.map SessionEvent.log =
      pre.filter isLogEvent := by
    rw [hl, map_log_filterMap]
  have e2 : (applyEmits initSessionBuf pre).screenshots.map
      SessionEvent.screenshot = pre.filter isShotEvent := by
    rw [hs, map_shot_filterMap]
  have e3 : ((sortedActivities (applyEmits initSessionBuf pre)).map
      Activity.toEvent).Perm
        (pre.filter isMsgEvent ++ pre.filter isIterEvent) := by
    have hperm := (sortByTs_perm
      ((applyEmits initSessionBuf pre).userMessages.map Activity.userMsg ++
        (applyEmits initSessionBuf pre).iterations.map Activity.iter)).map
      Activity.toEvent
    refine (hperm.trans ?_)
    rw [List.map_append, hm, hi, map_msg_filterMap, map_iter_filterMap]
  have hperm2 : (replayCore (applyEmits initSessionBuf pre)).Perm
      (pre.filter isBufferedKind) := by
    rw [replayCore, e1, e2]
    refine ((List.Perm.append_left _ e3).trans ?_)
    have h4 := four_filters_perm pre
    simpa [List.append_assoc] using h4
  refine ⟨rfl, hperm2, ?_, ?_, sortByTs_pairwise _, ?_⟩
  · rw [replayCore, e1, e2, List.filter_append, List.filter_append]
    have h1 : (pre.filter isLogEvent).filter isLogEvent =
        pre.filter isLogEvent := by
      simp [List.filter_filter]
    have h3 : (((sortedActivities (applyEmits initSessionBuf pre)).map
        Activity.toEvent)).filter isLogEvent = [] := by
      simp [List.filter_map, Function.comp, toEvent_not_log]
    rw [h1, filter_log_of_shots, h3]
    simp
  · rw [replayCore, e1, e2, List.filter_append, List.filter_append]
    have h2 : (pre.filter isShotEvent).filter isShotEvent =
        pre.filter isShotEvent := by
      simp [List.filter_filter]
    have h3 : (((sortedActivities (applyEmits initSessionBuf pre)).map
        Activity.toEvent)).filter isShotEvent = [] := by
      simp [List.filter_map, Function.comp, toEvent_not_shot]
    rw [filter_shot_of_logs, h2, h3]
    simp
  · exact e3.trans (msg_iter_filters_perm pre)

/-- C7 counterexample: with a screenshot emitted between two logs, the replay
sends both logs before the screenshot — grouped by category — so a
mid-attaching observer does not receive the buffered events in chronological
emission order as the claim states. -/
theorem replay_not_in_emission_order_cex :
    replayCore (applyEmits initSessionBuf [exLog1, exShot2, exLog3]) =
      [exLog1, exLog3, exShot2] ∧
    [exLog1, exLog3, exShot2] ≠ [exLog1, exShot2, exLog3] := by
  exact ⟨rfl, by decide⟩

/-- C8 counterexample: when the terminate signal is handled while a browser
command is still in flight, the handler releases the browser connection
immediately — the release does not wait for the in-flight call to return. -/
theorem terminate_releases_during_inflight_cex :
    c8Busy.inFlightCommand = true ∧
    (terminateHandler c8Busy).connectionReleases = 1 ∧
    (terminateHandler c8Busy).inFlightCommand = true := by
  exact ⟨rfl, rfl, rfl⟩

/-- C8 (amended): finishing a known session always sets its state to
`terminated`, schedules registry cleanup, and (when a worker is attached)
posts the terminate signal; the worker's terminate handler releases the
browser connection exactly once per signal and exits — but it initiates the
release immediately in the message handler, concurrently with any in-flight
command, not after that command returns (it never reads or waits on the
in-flight state). -/
theorem finish_terminates_and_releases_once (sess : SessionRec)
    (w : WorkerState) (hc : w.hasComputer = true) :
    finishSession (some sess) =
      (some { sess with state := "terminated" },
       { status := 200, terminateSent := sess.hasWorker,
         stateSet := some "terminated", cleanupScheduled := true }) ∧
    finishSession none =
      (none, { status := 404, terminateSent := false, stateSet := none,
               cleanupScheduled := false }) ∧
    terminateHandler w =
      { w with shouldTerminate := true,
               connectionReleases := w.connectionReleases + 1,
               exited := true } ∧
    (terminateHandler w).inFlightCommand = w.inFlightCommand := by
  refine ⟨rfl, rfl, ?_, ?_⟩
  · simp [terminateHandler, hc]
  · simp [terminateHandler, hc]

/-- Witness for the amended C8 at a concrete busy worker and live session. -/
theorem finish_terminates_and_releases_once_witness :
    finishSession (some { state := "running", hasWorker := true }) =
      (some { state := "terminated", hasWorker := true },
       { status := 200, terminateSent := true, stateSet := some "terminated",
         cleanupScheduled := true }) ∧
    terminateHandler c8Busy =
      { hasComputer := true, shouldTerminate := true, connectionReleases := 1,
        inFlightCommand := true, exited := true } := by
  have h := finish_terminates_and_releases_once
    { state := "running", hasWorker := true } c8Busy rfl
  exact ⟨h.1, h.2.2.1⟩

end Browsafex
